import Mathlib

/-!
# Verification of the gitlab-2-github merge-request migration engine

A shallow embedding, in Lean 4, of the parts of the `gitlab-2-github`
repository that the specification's claims are about:

* `pkg/utils/command.go` — text truncation (`TruncateText`,
  `WrapCommentAsResolved`) and the GitHub length limits;
* `pkg/github/client.go` — the retrying API gateway
  (`RetryableOperation`, `isRateLimitError`, `isRetryableError`,
  `calculateBackoff`) and the comment-submission bodies
  (`CreateIssueComment`);
* `pkg/gitlab/mergerequests.go` — the resume tracker and work selector
  of `MigrateMergeRequests`, the branch preparation of
  `preparePullRequestBranches` / `createPullRequest`, the title marker,
  and `resolveCommentLineRanges`.

Go strings are modelled rune-by-rune as `List Char` (every operation the
code performs on these strings is rune-based).  Machine integers are
modelled as `ℤ` (Go `int`); none of the embedded code paths overflow.
Remote calls and git subprocesses are modelled by explicit oracles giving
each call's outcome, and the embedding records which calls were attempted.
-/

/-- A Go string, viewed as its sequence of runes. -/
abbrev GoStr := List Char

/-- Model of Go `strings.HasPrefix`. -/
def goStartsWith (s pre : GoStr) : Bool :=
  pre.isPrefixOf s

/-- Model of Go `strings.TrimPrefix`: drop `pre` when present, else return
`s` unchanged. -/
def goTrimLeading (s pre : GoStr) : GoStr :=
  if goStartsWith s pre then s.drop pre.length else s

/-- Model of Go `strings.Contains s sub`. -/
def goContainsSub (s sub : GoStr) : Bool :=
  match s with
  | [] => sub.isEmpty
  | _ :: t => sub.isPrefixOf s || goContainsSub t sub

/-- Model of Go `strings.Split(s, " ")[0]`: the runes before the first
space (the whole string when it has no space). -/
def goSplitFirst (s : GoStr) : GoStr :=
  s.takeWhile (fun c => c ≠ ' ')

/-- Decimal value of a digit string, accumulated the way `strconv.Atoi`
accumulates it. -/
def digitsVal (cs : GoStr) : ℕ :=
  cs.foldl (fun acc c => acc * 10 + (c.toNat - 48)) 0

/-- Model of Go `strconv.Atoi`: an optional sign followed by at least one
digit; `none` models a returned error (the digit string never overflows in
the inputs this program feeds it). -/
def goAtoi (s : GoStr) : Option ℤ :=
  match s with
  | [] => none
  | c :: rest =>
    if c = '+' then
      if rest ≠ [] ∧ rest.all Char.isDigit then some (digitsVal rest : ℕ) else none
    else if c = '-' then
      if rest ≠ [] ∧ rest.all Char.isDigit then some (-(digitsVal rest : ℕ)) else none
    else if (c :: rest).all Char.isDigit then some (digitsVal (c :: rest) : ℕ) else none

/-! ## `pkg/utils/command.go` — length limits and truncation -/

/-- Constant `utils.MaxPRTitleLength` (pkg/utils/command.go). -/
def MaxPRTitleLength : ℕ := 256

/-- Constant `utils.MaxPRDescriptionLength` (pkg/utils/command.go). -/
def MaxPRDescriptionLength : ℕ := 65536

/-- Constant `utils.MaxCommentLength` (pkg/utils/command.go). -/
def MaxCommentLength : ℕ := 65536

/-- Constant `utils.TruncateSuffix` (pkg/utils/command.go). -/
def TruncateSuffix : GoStr := "... [truncated]".toList

/-- Function `utils.TruncateText` (pkg/utils/command.go): rune-count based
truncation to `maxLength`, appending `TruncateSuffix` when room allows.
Every call site passes a nonnegative `maxLength`, so `ℕ` subtraction
hitting `0` coincides with the Go `availableLength <= 0` test. -/
def TruncateText (text : GoStr) (maxLength : ℕ) : GoStr :=
  if text.length ≤ maxLength then text
  else
    let availableLength := maxLength - TruncateSuffix.length
    if availableLength = 0 then text.take maxLength
    else text.take availableLength ++ TruncateSuffix

/-- Function `utils.WrapCommentAsResolved` (pkg/utils/command.go): wrap a comment
in a collapsible `Resolved` disclosure block, re-truncating the inner text
to `MaxCommentLength - 35`. -/
def WrapCommentAsResolved (detail : GoStr) : GoStr :=
  "<details><summary>Resolved</summary>\n\n".toList
    ++ TruncateText detail (MaxCommentLength - 35)
    ++ "\n</details>".toList

/-- The body that `Client.CreateIssueComment` (github client, lines
494-516) submits to GitHub: the input truncated to `MaxCommentLength`,
additionally wrapped via `WrapCommentAsResolved` when the source note was
resolved.  (`CreatePRComment` and `CreatePRCommentReply` build their
bodies the same way.) -/
def createIssueCommentBody (body : GoStr) (resolved : Bool) : GoStr :=
  let truncatedBody := TruncateText body MaxCommentLength
  if resolved then WrapCommentAsResolved truncatedBody else truncatedBody

/-! ## Decimal formatting (model of Go `fmt.Sprintf("%d", ·)`) -/

/-- The decimal digits of `n`, most significant first; `fuel`-structured
so that the definition evaluates by kernel reduction (any `fuel ≥ n`
yields the digits of `n`). -/
def natDecimalDigitsAux : ℕ → ℕ → List ℕ
  | 0, n => [n % 10]
  | fuel + 1, n => if n < 10 then [n] else natDecimalDigitsAux fuel (n / 10) ++ [n % 10]

/-- The decimal digits of `n`, most significant first. -/
def natDecimalDigits (n : ℕ) : List ℕ :=
  natDecimalDigitsAux n n

/-- Decimal rendering of a natural number, one rune per digit. -/
def natDecimal (n : ℕ) : GoStr :=
  (natDecimalDigits n).map (fun d => Char.ofNat (48 + d))

/-- Model of Go `fmt.Sprintf("%d", i)` for an `int`. -/
def intDecimal (i : ℤ) : GoStr :=
  if i < 0 then '-' :: natDecimal i.natAbs else natDecimal i.toNat

/-! ## Resume tracker and title marker (`MigrateMergeRequests`,
pkg/gitlab/mergerequests.go lines 199-231 and 450-458) -/

/-- The `"GL#"` marker that opens every migrated destination title. -/
def glMarker : GoStr := "GL#".toList

/-- What the resume tracker records for one closed destination title
(lines 207-215): when the title starts with `"GL#"`, the first
space-separated field after the marker is fed to `strconv.Atoi` with the
error ignored, so an unparsable field records id `0`; a title without the
marker records nothing. -/
def markerRecordedId (title : GoStr) : Option ℤ :=
  if goStartsWith title glMarker then
    some ((goAtoi (goSplitFirst (goTrimLeading title glMarker))).getD 0)
  else none

/-- The migrated-id set built from all closed destination titles
(lines 207-215), as the list of recorded ids. -/
def buildMigratedIIDs (titles : List GoStr) : List ℤ :=
  titles.foldl
    (fun acc title =>
      match markerRecordedId title with
      | some iid => acc ++ [iid]
      | none => acc)
    []

/-- The stale-open relabel of lines 222-231: `"[Failed] "` is put in
front of the title so it can never be mistaken for a migrated marker. -/
def failedRelabel (title : GoStr) : GoStr :=
  "[Failed] ".toList ++ title

/-- The raw destination title built by `createPullRequest`
(lines 452-457): `GL#<iid> [Closed] <title>` for a closed item,
`GL#<iid> <title>` otherwise. -/
def buildPRTitle (iid : ℤ) (state mrTitle : GoStr) : GoStr :=
  if state = "closed".toList then
    glMarker ++ intDecimal iid ++ " [Closed] ".toList ++ mrTitle
  else
    glMarker ++ intDecimal iid ++ " ".toList ++ mrTitle

/-- The title actually submitted (line 458): the raw title truncated to
`MaxPRTitleLength`. -/
def truncatedPRTitle (iid : ℤ) (state mrTitle : GoStr) : GoStr :=
  TruncateText (buildPRTitle iid state mrTitle) MaxPRTitleLength

/-! ## Work selector (`MigrateMergeRequests`, lines 245-273) -/

/-- The fields of a paginated GitLab merge request that the work selector
inspects. -/
structure MR where
  iid : ℤ
  state : GoStr
  title : GoStr
deriving DecidableEq, Repr

/-- Structure `migration.MigrationOptions` (pkg/migration/options.go). -/
structure MigrationOptions where
  continueFromID : ℤ
  filterMergeReqIDs : List ℤ
  maxDiscussions : ℤ
deriving DecidableEq, Repr

/-- The per-item filter of the selection loop (lines 246-273), in the
order the code applies the tests: (1) skip ids below a positive
continue-from id; (2) when the explicit allow-list is nonempty, keep
exactly the listed ids (this arm returns without consulting the later
tests); (3) skip already-migrated ids; (4) skip items still `opened`. -/
def mrPassesFilter (opts : MigrationOptions) (migratedIIDs : List ℤ) (mr : MR) : Bool :=
  if opts.continueFromID > 0 ∧ mr.iid < opts.continueFromID then false
  else if opts.filterMergeReqIDs.length > 0 then opts.filterMergeReqIDs.contains mr.iid
  else if migratedIIDs.contains mr.iid then false
  else if mr.state = "opened".toList then false
  else true

/-- The `targetMRs` list for one fetched page (lines 245-273): the page items that
pass `mrPassesFilter`, in page order. -/
def selectTargetMRs (opts : MigrationOptions) (migratedIIDs : List ℤ)
    (mrs : List MR) : List MR :=
  mrs.filter (mrPassesFilter opts migratedIIDs)

/-! ## Retrying API gateway (`pkg/github/client.go` lines 122-210) -/

/-- The error shapes the gateway distinguishes: a GitHub
`*github.ErrorResponse` (status code plus message), a `*url.Error`
transport failure, or any other Go error. -/
inductive GoError where
  | errorResponse (statusCode : ℕ) (message : GoStr)
  | urlError (message : GoStr)
  | other (message : GoStr)
deriving DecidableEq, Repr

/-- Function `isRateLimitError` (client.go lines 159-171): HTTP 403 with the exact
message `rate limit`, or HTTP 429; every non-`ErrorResponse` error is not
rate-limit classified. -/
def isRateLimitError : GoError → Bool
  | .errorResponse statusCode message =>
      (statusCode == 403 && message == "rate limit".toList) || statusCode == 429
  | _ => false

/-- Function `isRetryableError` (client.go lines 173-193): HTTP 429, 500, 502,
503 or 504 on an `ErrorResponse`, or any `*url.Error` transport error. -/
def isRetryableError : GoError → Bool
  | .errorResponse code _ =>
      code == 429 || code == 500 || code == 502 || code == 503 || code == 504
  | .urlError _ => true
  | .other _ => false

/-- Constant `maxRetries` inside `RetryableOperation` (client.go line 124). -/
def maxRetries : ℕ := 5

/-- The distinguishable outcomes of `RetryableOperation`: success, the
distinctly wrapped `rate limited: %w` return, an immediately returned
non-retryable error, or the wrapped
`operation failed after %d attempts: %w` exhaustion return carrying the
last error. -/
inductive RetryResult where
  | ok
  | rateLimited (e : GoError)
  | nonRetryable (e : GoError)
  | exhausted (attempts : ℕ) (last : Option GoError)
deriving DecidableEq, Repr

/-- The attempt loop of `RetryableOperation` (client.go lines 129-155):
`operation k` is the outcome of the `k`-th call of `operation` (`none` =
success).  The inter-attempt wait always completes here (the cancellation
branch is outside the claims under verification). -/
def retryAux (operation : ℕ → Option GoError) : ℕ → ℕ → Option GoError → RetryResult
  | _, 0, lastErr => .exhausted maxRetries lastErr
  | attempt, fuel + 1, _ =>
    match operation attempt with
    | none => .ok
    | some e =>
      if isRateLimitError e then .rateLimited e
      else if isRetryableError e then retryAux operation (attempt + 1) fuel (some e)
      else .nonRetryable e

/-- Function `RetryableOperation` (client.go lines 122-156). -/
def RetryableOperation (operation : ℕ → Option GoError) : RetryResult :=
  retryAux operation 0 maxRetries none

/-- Function `calculateBackoff` (client.go lines 196-210), in exact arithmetic:
`u` stands for the sampled `rand.Float64()*2 - 1 ∈ [-1, 1)`.  The
exponential term gets ±20% jitter and is then clamped to `maxDelay`. -/
def calculateBackoff (attempt : ℕ) (initialDelay factor maxDelay u : ℚ) : ℚ :=
  let backoff := initialDelay * factor ^ attempt
  let jitter := backoff * (2 / 10) * u
  let backoff := backoff + jitter
  if backoff > maxDelay then maxDelay else backoff

/-! ## Pagination of the merge-request listing
(`MigrateMergeRequests` lines 233-243 driving `GetMergeRequests`,
pkg/gitlab/mergerequests.go lines 18-31) -/

/-- The listing options `GetMergeRequests` sends for a page
(mergerequests.go lines 20-27). -/
structure MRListOpts where
  orderBy : GoStr
  sortDir : GoStr
  perPage : ℕ
  page : ℕ
deriving DecidableEq, Repr

/-- Function `GetMergeRequests` requests page `page` with `created_at` ascending
order and a fixed page size of 100. -/
def getMergeRequestsOpts (page : ℕ) : MRListOpts :=
  { orderBy := "created_at".toList
    sortDir := "asc".toList
    perPage := 100
    page := page }

/-- The pages the loop of `MigrateMergeRequests` (lines 233-243, 312)
requests, starting at `page`: each page is fetched; an empty page stops
the loop (`if len(mrs) == 0 break`), any nonempty page is processed and
the loop moves to the next page.  `fuel` bounds the unbounded Go loop;
every run that stops does so within any sufficiently large `fuel`. -/
def pagesVisited (fetch : ℕ → List MR) : ℕ → ℕ → List ℕ
  | 0, _ => []
  | fuel + 1, page =>
    if fetch page = [] then [page] else page :: pagesVisited fetch fuel (page + 1)

/-! ## Line-range resolution (`resolveCommentLineRanges`,
pkg/gitlab/mergerequests.go lines 662-691, and `CreatePRComment`,
github client lines 582-607) -/

/-- One endpoint of a GitLab note anchor (`LineRange.StartRange` /
`LineRange.EndRange`): old-file and new-file line numbers, `0` when the
side is absent. -/
structure LineRangePos where
  oldLine : ℤ
  newLine : ℤ
deriving DecidableEq, Repr

/-- A note anchor's line range. -/
structure NoteLineRange where
  startRange : Option LineRangePos
  endRange : Option LineRangePos
deriving DecidableEq, Repr

/-- A note's position (anchor). -/
structure NotePosition where
  newPath : GoStr
  lineRange : Option NoteLineRange
deriving DecidableEq, Repr

/-- The fields of a GitLab note that the discussion migrator inspects. -/
structure Note where
  body : GoStr
  system : Bool
  resolved : Bool
  position : Option NotePosition
deriving DecidableEq, Repr

/-- The candidate line numbers collected by `resolveCommentLineRanges`
(lines 663-681), in source order: the non-zero old/new line of the start
range, then the non-zero old/new line of the end range. -/
def collectLineNumbers (note : Note) : List ℤ :=
  match note.position with
  | none => []
  | some pos =>
    match pos.lineRange with
    | none => []
    | some lr =>
      (match lr.startRange with
       | none => []
       | some r =>
         (if r.oldLine ≠ 0 then [r.oldLine] else [])
           ++ (if r.newLine ≠ 0 then [r.newLine] else []))
        ++ (match lr.endRange with
            | none => []
            | some r =>
              (if r.oldLine ≠ 0 then [r.oldLine] else [])
                ++ (if r.newLine ≠ 0 then [r.newLine] else []))

/-- Function `resolveCommentLineRanges` (lines 662-691): stable-sort the non-zero
candidates ascending (`sort.SliceStable` with `<`, modelled by the stable
`List.insertionSort` on `≤`); the first sorted element is the range start,
the last is the range end; no range when no candidate survives. -/
def resolveCommentLineRanges (note : Note) : Option ℤ × Option ℤ :=
  let numbers := List.insertionSort (· ≤ ·) (collectLineNumbers note)
  match numbers with
  | [] => (none, none)
  | x :: xs => (some x, some ((x :: xs).getLast (List.cons_ne_nil x xs)))

/-- The `start_line` actually supplied by `CreatePRComment` (github
client lines 585-588): the resolved start only when both endpoints exist
and the start is strictly below the last line; otherwise no distinct
start (a single-line comment). -/
def prCommentStartLine (startLine lastLine : Option ℤ) : Option ℤ :=
  match startLine, lastLine with
  | some s, some l => if s < l then some s else none
  | _, _ => none

/-! ## Branch preparation (`preparePullRequestBranches`,
pkg/gitlab/mergerequests.go lines 386-440, and its caller
`createPullRequest`, lines 442-528) -/

/-- The commit refs of a merge request that branch preparation uses. -/
structure MRRefs where
  baseSha : GoStr
  headSha : GoStr
  squashCommitSha : GoStr
deriving DecidableEq, Repr

/-- Outcomes of the git collaborator's calls: `createBranch` maps the
`(branch, sha)` pair of a `g.CreateBranch` call to `none` (success) or the
error message; `commitEmpty` and `push` are the outcomes of `g.Commit`
and `g.PushBranchOrigins`. -/
structure GitOps where
  createBranch : GoStr → GoStr → Option GoStr
  commitEmpty : Option GoStr
  push : Option GoStr

/-- The git calls `preparePullRequestBranches` can issue, in issue
order. -/
inductive GitAction where
  | createBranch (branch sha : GoStr)
  | commitEmpty
  | pushBranches (targetBranch sourceBranch : GoStr)
deriving DecidableEq, Repr

/-- The classified failure signature of lines 392 and 411. -/
def notOurRef : GoStr := "not our ref".toList

/-- What a run of `preparePullRequestBranches` produced: the error value
it returned (`none` mirrors `return nil`) and the git calls it issued. -/
structure PrepOutcome where
  retErr : Option GoStr
  actions : List GitAction
deriving DecidableEq, Repr

/-- Function `preparePullRequestBranches` (lines 386-440), with the git
collaborator abstracted by `g`.  Mirrors the Go control flow: a branch
materialization failure matching `notOurRef` switches to the no-diff
fallback; any other materialization failure logs a warning and executes
`return nil` (line 397/415) — returning *no error* — without reaching the
push; fallback/commit/push failures are returned as wrapped errors. -/
def preparePullRequestBranches (g : GitOps) (mr : MRRefs)
    (sourceBranch targetBranch : GoStr) (hasDiffs : Bool) : PrepOutcome := Id.run do
  let mut acts : List GitAction := []
  let mut fallbackNoDiffPR := !hasDiffs
  let mut hasCreatedTargetBranch := false

  if hasDiffs then
    acts := acts ++ [.createBranch targetBranch mr.baseSha]
    match g.createBranch targetBranch mr.baseSha with
    | some e =>
      if goContainsSub e notOurRef then
        fallbackNoDiffPR := true
      else
        return ⟨none, acts⟩
    | none => hasCreatedTargetBranch := true

  if !fallbackNoDiffPR then
    let sourceBranchSha := if mr.squashCommitSha ≠ [] then mr.squashCommitSha else mr.headSha
    acts := acts ++ [.createBranch sourceBranch sourceBranchSha]
    match g.createBranch sourceBranch sourceBranchSha with
    | some e =>
      if goContainsSub e notOurRef then
        fallbackNoDiffPR := true
      else
        return ⟨none, acts⟩
    | none => pure ()

  if fallbackNoDiffPR then
    if !hasCreatedTargetBranch then
      acts := acts ++ [.createBranch targetBranch []]
      match g.createBranch targetBranch [] with
      | some e => return ⟨some ("failed to create fallback no diff target branch: ".toList ++ e), acts⟩
      | none => pure ()
    acts := acts ++ [.createBranch sourceBranch []]
    match g.createBranch sourceBranch [] with
    | some e => return ⟨some ("failed to create fallback no diff source branch: ".toList ++ e), acts⟩
    | none => pure ()
    acts := acts ++ [.commitEmpty]
    match g.commitEmpty with
    | some e => return ⟨some ("failed to create fallback no diff source branch empty commit: ".toList ++ e), acts⟩
    | none => pure ()

  acts := acts ++ [.pushBranches targetBranch sourceBranch]
  match g.push with
  | some e => return ⟨some ("failed to push branches: ".toList ++ e), acts⟩
  | none => return ⟨none, acts⟩

/-- Whether `createPullRequest` (lines 442-528) goes on to attempt the
GitHub PR-creation call for this item: it aborts only when
`preparePullRequestBranches` returned a non-nil error (lines 445-448);
with a nil error it proceeds to `CreatePullRequest` (lines 501-514). -/
def createPullRequestAttemptsCreate (g : GitOps) (mr : MRRefs)
    (sourceBranch targetBranch : GoStr) (hasDiffs : Bool) : Bool :=
  (preparePullRequestBranches g mr sourceBranch targetBranch hasDiffs).retErr.isNone

/-- A git oracle for tests: target-branch creation from the base sha
fails with a non-`not our ref` error; everything else succeeds. -/
def gitDeniedAtBase : GitOps :=
  { createBranch := fun _branch sha =>
      if sha = "basesha".toList then some "exit status 128: permission denied".toList else none
    commitEmpty := none
    push := none }

/-! ## Supporting lemmas: decimal rendering round-trips through `Atoi` -/

/-- Value of a digit list, most significant first. -/
def decVal (l : List ℕ) : ℕ :=
  l.foldl (fun a d => a * 10 + d) 0

theorem decVal_append_digit (xs : List ℕ) (d : ℕ) :
    decVal (xs ++ [d]) = decVal xs * 10 + d := by
  simp [decVal, List.foldl_append]

theorem natDecimalDigitsAux_decVal :
    ∀ fuel n, n ≤ fuel → decVal (natDecimalDigitsAux fuel n) = n := by
  intro fuel
  induction fuel with
  | zero =>
    intro n hn
    have : n = 0 := by omega
    subst this
    decide
  | succ fuel ih =>
    intro n hn
    by_cases h : n < 10
    · simp [natDecimalDigitsAux, h, decVal]
    · have hdiv : n / 10 ≤ fuel := by
        have := Nat.div_lt_self (show 0 < n by omega) (show 1 < 10 by omega)
        omega
      rw [natDecimalDigitsAux, if_neg h, decVal_append_digit, ih _ hdiv]
      omega

theorem natDecimalDigitsAux_lt10 :
    ∀ fuel n d, d ∈ natDecimalDigitsAux fuel n → d < 10 := by
  intro fuel
  induction fuel with
  | zero =>
    intro n d hd
    simp only [natDecimalDigitsAux, List.mem_singleton] at hd
    omega
  | succ fuel ih =>
    intro n d hd
    rw [natDecimalDigitsAux] at hd
    by_cases h : n < 10
    · rw [if_pos h] at hd
      simp only [List.mem_singleton] at hd
      omega
    · rw [if_neg h] at hd
      rcases List.mem_append.1 hd with h1 | h2
      · exact ih _ _ h1
      · simp only [List.mem_singleton] at h2
        omega

theorem natDecimalDigitsAux_ne_nil (fuel n : ℕ) : natDecimalDigitsAux fuel n ≠ [] := by
  cases fuel with
  | zero => simp [natDecimalDigitsAux]
  | succ fuel =>
    rw [natDecimalDigitsAux]
    split
    · simp
    · simp

theorem decVal_natDecimalDigits (n : ℕ) : decVal (natDecimalDigits n) = n :=
  natDecimalDigitsAux_decVal n n le_rfl

theorem natDecimalDigits_lt10 (n d : ℕ) (hd : d ∈ natDecimalDigits n) : d < 10 :=
  natDecimalDigitsAux_lt10 n n d hd

theorem natDecimalDigits_ne_nil (n : ℕ) : natDecimalDigits n ≠ [] :=
  natDecimalDigitsAux_ne_nil n n

theorem digitChar_facts (d : ℕ) (h : d < 10) :
    (Char.ofNat (48 + d)).toNat = 48 + d ∧ (Char.ofNat (48 + d)).isDigit = true ∧
    Char.ofNat (48 + d) ≠ ' ' ∧ Char.ofNat (48 + d) ≠ '+' ∧ Char.ofNat (48 + d) ≠ '-' := by
  interval_cases d <;> exact ⟨by decide, by decide, by decide, by decide, by decide⟩

theorem foldl_digits_map (l : List ℕ) :
    ∀ acc, (∀ d ∈ l, d < 10) →
      List.foldl (fun a c => a * 10 + (c.toNat - 48)) acc
        (l.map (fun d => Char.ofNat (48 + d)))
      = List.foldl (fun a d => a * 10 + d) acc l := by
  induction l with
  | nil => intro acc _; rfl
  | cons d l ih =>
    intro acc h
    simp only [List.map_cons, List.foldl_cons]
    rw [(digitChar_facts d (h d (List.mem_cons_self d l))).1]
    have h48 : 48 + d - 48 = d := by omega
    rw [h48]
    exact ih _ (fun x hx => h x (List.mem_cons_of_mem d hx))

theorem digitsVal_natDecimal (n : ℕ) : digitsVal (natDecimal n) = n := by
  rw [natDecimal, digitsVal, foldl_digits_map _ 0 (natDecimalDigits_lt10 n)]
  exact decVal_natDecimalDigits n

theorem natDecimal_ne_nil (n : ℕ) : natDecimal n ≠ [] := by
  rw [natDecimal]
  simp [natDecimalDigits_ne_nil n]

theorem natDecimal_mem_facts (n : ℕ) (c : Char) (hc : c ∈ natDecimal n) :
    c.isDigit = true ∧ c ≠ ' ' ∧ c ≠ '+' ∧ c ≠ '-' := by
  rw [natDecimal] at hc
  obtain ⟨d, hd, rfl⟩ := List.mem_map.1 hc
  have h10 := natDecimalDigits_lt10 n d hd
  exact ⟨(digitChar_facts d h10).2.1, (digitChar_facts d h10).2.2.1,
    (digitChar_facts d h10).2.2.2.1, (digitChar_facts d h10).2.2.2.2⟩

theorem goAtoi_natDecimal (n : ℕ) : goAtoi (natDecimal n) = some (n : ℤ) := by
  rcases h : natDecimal n with _ | ⟨c, rest⟩
  · exact absurd h (natDecimal_ne_nil n)
  · have hc : c ∈ natDecimal n := by rw [h]; exact List.mem_cons_self c rest
    have hfacts := natDecimal_mem_facts n c hc
    have hall : (c :: rest).all Char.isDigit = true := by
      rw [← h]
      rw [List.all_eq_true]
      intro x hx
      exact (natDecimal_mem_facts n x hx).1
    rw [goAtoi]
    rw [if_neg (by simpa using hfacts.2.2.1), if_neg (by simpa using hfacts.2.2.2),
      if_pos hall]
    rw [← h, digitsVal_natDecimal]

theorem goSplitFirst_no_space (l₁ l₂ : GoStr) (h : ∀ c ∈ l₁, c ≠ ' ') :
    goSplitFirst (l₁ ++ ' ' :: l₂) = l₁ := by
  induction l₁ with
  | nil => simp [goSplitFirst]
  | cons c cs ih =>
    have hc : c ≠ ' ' := h c (List.mem_cons_self c cs)
    simp only [goSplitFirst, List.cons_append, List.takeWhile_cons] at *
    rw [if_pos (by simpa using hc)]
    rw [ih (fun x hx => h x (List.mem_cons_of_mem c hx))]

theorem markerRecordedId_of_marker (n : ℕ) (rest : GoStr) :
    markerRecordedId (glMarker ++ natDecimal n ++ ' ' :: rest) = some (n : ℤ) := by
  have hpre : goStartsWith (glMarker ++ natDecimal n ++ ' ' :: rest) glMarker = true := by
    rw [goStartsWith, List.isPrefixOf_iff_prefix, List.append_assoc]
    exact glMarker.prefix_append _
  rw [markerRecordedId, if_pos hpre, goTrimLeading, if_pos hpre, List.append_assoc,
    List.drop_left, goSplitFirst_no_space _ _ (fun c hc => (natDecimal_mem_facts n c hc).2.1),
    goAtoi_natDecimal]
  rfl

theorem truncateText_keeps_front (P rest : GoStr)
    (h : P.length ≤ MaxPRTitleLength - TruncateSuffix.length) :
    ∃ rest2, TruncateText (P ++ rest) MaxPRTitleLength = P ++ rest2 := by
  simp only [TruncateText]
  split_ifs with h1 h2
  · exact ⟨rest, rfl⟩
  · exact absurd h2 (by decide)
  · refine ⟨rest.take (MaxPRTitleLength - TruncateSuffix.length - P.length) ++ TruncateSuffix, ?_⟩
    rw [List.take_append_eq_append_take, List.take_of_length_le h, List.append_assoc]

theorem buildPRTitle_shape (iid : ℤ) (state mrTitle : GoStr) :
    ∃ rest, buildPRTitle iid state mrTitle = glMarker ++ intDecimal iid ++ ' ' :: rest := by
  rw [buildPRTitle]
  split_ifs
  · refine ⟨"[Closed] ".toList ++ mrTitle, ?_⟩
    have : (" [Closed] ".toList : GoStr) = ' ' :: "[Closed] ".toList := by decide
    rw [this]
    simp [List.append_assoc]
  · exact ⟨mrTitle, by
      have : (" ".toList : GoStr) = [' '] := by decide
      rw [this]
      simp [List.append_assoc]⟩

theorem truncatedPRTitle_shape (iid : ℤ) (state mrTitle : GoStr)
    (hlen : (intDecimal iid).length ≤ 237) :
    ∃ rest, truncatedPRTitle iid state mrTitle = glMarker ++ intDecimal iid ++ ' ' :: rest := by
  obtain ⟨rest0, h0⟩ := buildPRTitle_shape iid state mrTitle
  have hP : ((glMarker ++ intDecimal iid ++ [' ']).length) ≤
      MaxPRTitleLength - TruncateSuffix.length := by
    simp only [List.length_append, List.length_cons, List.length_nil]
    have h3 : glMarker.length = 3 := by decide
    have h15 : MaxPRTitleLength - TruncateSuffix.length = 241 := by decide
    omega
  obtain ⟨rest2, h2⟩ := truncateText_keeps_front (glMarker ++ intDecimal iid ++ [' ']) rest0
    hP
  refine ⟨rest2, ?_⟩
  rw [truncatedPRTitle, h0]
  have hassoc : glMarker ++ intDecimal iid ++ ' ' :: rest0 =
      (glMarker ++ intDecimal iid ++ [' ']) ++ rest0 := by
    simp
  have hassoc2 : (glMarker ++ intDecimal iid ++ [' ']) ++ rest2 =
      glMarker ++ intDecimal iid ++ ' ' :: rest2 := by
    simp
  rw [hassoc, h2, hassoc2]

theorem intDecimal_of_nonneg (iid : ℤ) (h : 0 ≤ iid) :
    intDecimal iid = natDecimal iid.toNat := by
  rw [intDecimal, if_neg (by omega)]

theorem truncatedPRTitle_parses (iid : ℤ) (state mrTitle : GoStr) (h0 : 0 ≤ iid)
    (hlen : (intDecimal iid).length ≤ 237) :
    markerRecordedId (truncatedPRTitle iid state mrTitle) = some iid := by
  obtain ⟨rest, hr⟩ := truncatedPRTitle_shape iid state mrTitle hlen
  rw [hr, intDecimal_of_nonneg iid h0, markerRecordedId_of_marker, Int.toNat_of_nonneg h0]

theorem markerRecordedId_failedRelabel (title : GoStr) :
    markerRecordedId (failedRelabel title) = none := by
  have hpre : goStartsWith (failedRelabel title) glMarker = false := by rfl
  simp [markerRecordedId, hpre]

/-- Claim C6: (title marker round-trip): a migrated item with nonnegative id
`N` (whose decimal form fits the truncation room — every Go `int` does)
gets a destination title beginning with `GL#N` followed by a space; the
resume tracker's parse of that title recovers exactly `N`; a different
item's title never parses to `N`; any title parses to at most one
integer; and a title relabeled with the `[Failed] ` front marker never
parses as a migrated marker. -/
theorem title_marker_roundtrip :
    (∀ (iid : ℤ) (state mrTitle : GoStr), 0 ≤ iid →
      (intDecimal iid).length ≤ 237 →
      glMarker ++ intDecimal iid ++ [' '] <+: truncatedPRTitle iid state mrTitle ∧
      markerRecordedId (truncatedPRTitle iid state mrTitle) = some iid) ∧
    (∀ (iid₁ iid₂ : ℤ) (s₂ t₂ : GoStr), 0 ≤ iid₂ →
      (intDecimal iid₂).length ≤ 237 → iid₁ ≠ iid₂ →
      markerRecordedId (truncatedPRTitle iid₂ s₂ t₂) ≠ some iid₁) ∧
    (∀ (title : GoStr) (n₁ n₂ : ℤ), markerRecordedId title = some n₁ →
      markerRecordedId title = some n₂ → n₁ = n₂) ∧
    (∀ title : GoStr, markerRecordedId (failedRelabel title) = none) := by
  refine ⟨?_, ?_, ?_, markerRecordedId_failedRelabel⟩
  · intro iid state mrTitle h0 hlen
    obtain ⟨rest, hr⟩ := truncatedPRTitle_shape iid state mrTitle hlen
    refine ⟨?_, truncatedPRTitle_parses iid state mrTitle h0 hlen⟩
    rw [hr]
    have hassoc : glMarker ++ intDecimal iid ++ ' ' :: rest =
        (glMarker ++ intDecimal iid ++ [' ']) ++ rest := by simp
    rw [hassoc]
    exact List.prefix_append _ _
  · intro iid₁ iid₂ s₂ t₂ h0 hlen hne
    rw [truncatedPRTitle_parses iid₂ s₂ t₂ h0 hlen]
    intro hc
    exact hne (Option.some.inj hc).symm
  · intro title n₁ n₂ h1 h2
    rw [h1] at h2
    exact Option.some.inj h2

theorem title_marker_roundtrip_witness :
    ((0 : ℤ) ≤ 42 ∧ (intDecimal 42).length ≤ 237 ∧
      markerRecordedId (truncatedPRTitle 42 "merged".toList "speed up sync".toList)
        = some 42) ∧
    markerRecordedId (failedRelabel "GL#42 old title".toList) = none :=
  ⟨⟨by decide, by decide,
    (title_marker_roundtrip.1 42 "merged".toList "speed up sync".toList
      (by decide) (by decide)).2⟩,
   title_marker_roundtrip.2.2.2 "GL#42 old title".toList⟩

/-- Claim C10: (tracker records 0 for malformed markers): a closed
destination title that starts with `GL#` but whose first space-separated
field fails integer parsing is not skipped — the ignored `Atoi` error
leaves the zero value, and the tracker records id `0` in the migrated-id
set. -/
theorem tracker_malformed_marker_records_zero :
    (∀ title : GoStr, goStartsWith title glMarker = true →
      goAtoi (goSplitFirst (goTrimLeading title glMarker)) = none →
      markerRecordedId title = some 0) ∧
    buildMigratedIIDs ["GL#abc fix".toList] = [(0 : ℤ)] := by
  constructor
  · intro title h1 h2
    rw [markerRecordedId, if_pos h1, h2]
    rfl
  · decide

theorem tracker_malformed_marker_records_zero_witness :
    goStartsWith "GL#abc fix".toList glMarker = true ∧
    goAtoi (goSplitFirst (goTrimLeading "GL#abc fix".toList glMarker)) = none ∧
    markerRecordedId "GL#abc fix".toList = some 0 :=
  ⟨by decide, by decide,
   tracker_malformed_marker_records_zero.1 "GL#abc fix".toList (by decide) (by decide)⟩

/-! ## Claims about the work selector -/

/-- Claim C1: (counterexample): with allow-list `{2, 7}` and continuation
id `5`, the selector does *not* migrate item 2 — the continuation filter
is applied before the allow-list, so only item 7 is selected, refuting
"migrates exactly the items with ids 2 and 7". -/
theorem selector_allowlist_ignores_continuation_refuted :
    (2 : ℤ) ∈ (⟨5, [2, 7], 0⟩ : MigrationOptions).filterMergeReqIDs ∧
    selectTargetMRs ⟨5, [2, 7], 0⟩ []
        [⟨2, "merged".toList, []⟩, ⟨5, "closed".toList, []⟩, ⟨7, "merged".toList, []⟩]
      = [⟨7, "merged".toList, []⟩] ∧
    (⟨2, "merged".toList, []⟩ : MR) ∉
      selectTargetMRs ⟨5, [2, 7], 0⟩ []
        [⟨2, "merged".toList, []⟩, ⟨5, "closed".toList, []⟩, ⟨7, "merged".toList, []⟩] := by
  decide

/-- Claim C1: (amended): the continuation filter is applied before the
explicit allow-list; when the allow-list is nonempty the selector keeps
exactly the items that pass the continuation filter *and* are listed
(the already-migrated and still-open tests are indeed overridden); in
particular allow-list `{2, 7}` with continuation id `5` migrates exactly
item 7. -/
theorem selector_allowlist_after_continuation :
    (∀ (opts : MigrationOptions) (migrated : List ℤ) (mrs : List MR),
      opts.filterMergeReqIDs ≠ [] →
      selectTargetMRs opts migrated mrs =
        mrs.filter (fun mr =>
          !(decide (opts.continueFromID > 0 ∧ mr.iid < opts.continueFromID)) &&
            opts.filterMergeReqIDs.contains mr.iid)) ∧
    selectTargetMRs ⟨5, [2, 7], 0⟩ []
        [⟨2, "merged".toList, []⟩, ⟨5, "closed".toList, []⟩, ⟨7, "merged".toList, []⟩]
      = [⟨7, "merged".toList, []⟩] := by
  constructor
  · intro opts migrated mrs hne
    rw [selectTargetMRs]
    apply List.filter_congr
    intro mr _
    rw [mrPassesFilter]
    by_cases hc : opts.continueFromID > 0 ∧ mr.iid < opts.continueFromID
    · rw [if_pos hc]
      simp [hc]
    · rw [if_neg hc, if_pos (List.length_pos.2 hne)]
      simp [hc]
  · decide

theorem selector_allowlist_after_continuation_witness :
    ((⟨5, [2, 7], 0⟩ : MigrationOptions).filterMergeReqIDs ≠ [] ∧
      selectTargetMRs ⟨5, [2, 7], 0⟩ []
          [⟨2, "merged".toList, []⟩, ⟨7, "opened".toList, []⟩]
        = List.filter (fun mr =>
            !(decide ((5 : ℤ) > 0 ∧ mr.iid < (5 : ℤ))) && [(2 : ℤ), 7].contains mr.iid)
            [⟨2, "merged".toList, []⟩, ⟨7, "opened".toList, []⟩]) :=
  ⟨by decide,
   selector_allowlist_after_continuation.1 ⟨5, [2, 7], 0⟩ []
     [⟨2, "merged".toList, []⟩, ⟨7, "opened".toList, []⟩] (by decide)⟩

/-- Claim C2: (counterexample): an item still `opened` at the source *is*
selected when an explicit allow-list names it — the allow-list arm
returns before the still-open test — refuting "excluded in every run
(including runs with an explicit id allow-list)". -/
theorem selector_open_never_selected_refuted :
    (⟨2, "opened".toList, []⟩ : MR).state = "opened".toList ∧
    selectTargetMRs ⟨0, [2], 0⟩ [] [⟨2, "opened".toList, []⟩]
      = [⟨2, "opened".toList, []⟩] := by
  decide

/-- Claim C2: (amended): items still `opened` at the source are excluded in
every run *without* an explicit id allow-list; when an allow-list is set,
any paginated item it names that passes the continuation filter is
selected, even one still `opened`. -/
theorem selector_open_excluded_without_allowlist :
    (∀ (opts : MigrationOptions) (migrated : List ℤ) (mrs : List MR) (mr : MR),
      opts.filterMergeReqIDs = [] →
      mr ∈ selectTargetMRs opts migrated mrs →
      mr.state ≠ "opened".toList) ∧
    (∀ (opts : MigrationOptions) (migrated : List ℤ) (mrs : List MR) (mr : MR),
      mr ∈ mrs →
      opts.filterMergeReqIDs.contains mr.iid = true →
      ¬(opts.continueFromID > 0 ∧ mr.iid < opts.continueFromID) →
      mr ∈ selectTargetMRs opts migrated mrs) := by
  constructor
  · intro opts migrated mrs mr hfl hmem hstate
    have hpass := (List.mem_filter.1 hmem).2
    rw [mrPassesFilter] at hpass
    rw [hfl] at hpass
    split_ifs at hpass
    simp_all
  · intro opts migrated mrs mr hmem hcontains hcont
    have hne : opts.filterMergeReqIDs ≠ [] := by
      intro h
      rw [h] at hcontains
      simp at hcontains
    refine List.mem_filter.2 ⟨hmem, ?_⟩
    rw [mrPassesFilter, if_neg hcont, if_pos (List.length_pos.2 hne)]
    exact hcontains

theorem selector_open_excluded_without_allowlist_witness :
    ((⟨0, [], 0⟩ : MigrationOptions).filterMergeReqIDs = [] ∧
      (⟨3, "merged".toList, []⟩ : MR) ∈ selectTargetMRs ⟨0, [], 0⟩ [] [⟨3, "merged".toList, []⟩] ∧
      (⟨3, "merged".toList, []⟩ : MR).state ≠ "opened".toList) ∧
    (⟨2, "opened".toList, []⟩ : MR) ∈ selectTargetMRs ⟨0, [2], 0⟩ [] [⟨2, "opened".toList, []⟩] :=
  ⟨⟨by decide, by decide,
    selector_open_excluded_without_allowlist.1 ⟨0, [], 0⟩ [] [⟨3, "merged".toList, []⟩]
      ⟨3, "merged".toList, []⟩ (by decide) (by decide)⟩,
   selector_open_excluded_without_allowlist.2 ⟨0, [2], 0⟩ [] [⟨2, "opened".toList, []⟩]
     ⟨2, "opened".toList, []⟩ (by decide) (by decide) (by decide)⟩

/-! ## Claims about pagination -/

/-- A fetch oracle on which page 1 returns 50 items (fewer than the page
size of 100) and every later page is empty. -/
def fetchHalfPage : ℕ → List MR :=
  fun page => if page = 1 then List.replicate 50 ⟨1, "merged".toList, []⟩ else []

/-- Claim C8: (counterexample): a page with 50 items — fewer than the page
size 100 — does *not* stop the listing loop: page 2 is still requested.
The loop stops only on an empty page (`len(mrs) == 0`). -/
theorem pagination_stops_below_page_size_refuted :
    (fetchHalfPage 1).length < (getMergeRequestsOpts 1).perPage ∧
    pagesVisited fetchHalfPage 10 1 = [1, 2] := by
  decide

/-- Claim C8: (amended): each request asks for a fixed page size of 100 in
`created_at`-ascending order, and the loop terminates exactly when a page
returns *zero* items: if pages `page, …, page+k-1` are nonempty and page
`page+k` is empty, exactly the pages `page, …, page+k` are requested. -/
theorem pagination_terminates_on_empty_page :
    (∀ page, getMergeRequestsOpts page =
      ⟨"created_at".toList, "asc".toList, 100, page⟩) ∧
    (∀ (fetch : ℕ → List MR) (fuel page k : ℕ), k < fuel →
      (∀ j, j < k → fetch (page + j) ≠ []) →
      fetch (page + k) = [] →
      pagesVisited fetch fuel page = List.range' page (k + 1)) := by
  refine ⟨fun _ => rfl, ?_⟩
  intro fetch fuel page k
  induction k generalizing fuel page with
  | zero =>
    intro hk _ hempty
    cases fuel with
    | zero => omega
    | succ fuel =>
      rw [pagesVisited, if_pos (by simpa using hempty)]
      rfl
  | succ k ih =>
    intro hk hnonempty hempty
    cases fuel with
    | zero => omega
    | succ fuel =>
      have h0 : fetch page ≠ [] := by
        have := hnonempty 0 (by omega)
        simpa using this
      rw [pagesVisited, if_neg h0]
      have hrec := ih fuel (page + 1) (by omega)
        (fun j hj => by
          have := hnonempty (j + 1) (by omega)
          have harith : page + (j + 1) = page + 1 + j := by omega
          rwa [harith] at this)
        (by
          have harith : page + (k + 1) = page + 1 + k := by omega
          rwa [harith] at hempty)
      rw [hrec, List.range'_succ page (k + 1) 1]

theorem pagination_terminates_on_empty_page_witness :
    ((1 < 10 ∧ (∀ j, j < 1 → fetchHalfPage (1 + j) ≠ []) ∧ fetchHalfPage (1 + 1) = []) ∧
      pagesVisited fetchHalfPage 10 1 = List.range' 1 2) :=
  ⟨⟨by decide, by decide, by decide⟩,
   pagination_terminates_on_empty_page.2 fetchHalfPage 10 1 1 (by decide) (by decide)
     (by decide)⟩

/-! ## Claims about line-range resolution -/

theorem sorted_le_getLast {l : List ℤ} (h : List.Sorted (· ≤ ·) l) (x : ℤ)
    (hx : x ∈ l) (hne : l ≠ []) : x ≤ l.getLast hne := by
  induction l with
  | nil => cases hx
  | cons a t ih =>
    cases t with
    | nil =>
      simp only [List.mem_singleton] at hx
      simp [List.getLast, hx]
    | cons b t2 =>
      rw [List.getLast_cons (List.cons_ne_nil b t2)]
      rcases List.mem_cons.1 hx with rfl | hx2
      · have hmem := List.getLast_mem (List.cons_ne_nil b t2)
        exact List.rel_of_sorted_cons h _ hmem
      · exact ih h.of_cons hx2 (List.cons_ne_nil b t2)

theorem sorted_head_le {a : ℤ} {t : List ℤ} (h : List.Sorted (· ≤ ·) (a :: t)) :
    ∀ x ∈ a :: t, a ≤ x := by
  intro x hx
  rcases List.mem_cons.1 hx with rfl | hx2
  · exact le_refl x
  · exact List.rel_of_sorted_cons h _ hx2

/-- The note of the spec's worked example: anchor endpoints
`{old-start = 0, new-start = 10, old-end = 12, new-end = 0}`. -/
def exampleAnchorNote : Note :=
  { body := [], system := false, resolved := false,
    position := some
      { newPath := [],
        lineRange := some
          { startRange := some { oldLine := 0, newLine := 10 },
            endRange := some { oldLine := 12, newLine := 0 } } } }

/-- Claim C7: (line-range resolution): the non-zero anchor candidates are
sorted ascending and the first/last become the range start/end (the
start is a least collected candidate and the end a greatest); no range
is produced when no candidate survives; `CreatePRComment` supplies a
distinct start line exactly when both endpoints exist and start < end;
and the worked example `{old-start 0, new-start 10, old-end 12,
new-end 0}` resolves to `(10, 12)`. -/
theorem line_range_resolution :
    (∀ note : Note, collectLineNumbers note = [] →
      resolveCommentLineRanges note = (none, none)) ∧
    (∀ (note : Note) (a b : ℤ), resolveCommentLineRanges note = (some a, some b) →
      a ∈ collectLineNumbers note ∧ b ∈ collectLineNumbers note ∧
      ∀ x ∈ collectLineNumbers note, a ≤ x ∧ x ≤ b) ∧
    (∀ s l : Option ℤ, (prCommentStartLine s l).isSome = true ↔
      ∃ sv lv, s = some sv ∧ l = some lv ∧ sv < lv) ∧
    resolveCommentLineRanges exampleAnchorNote = (some 10, some 12) := by
  refine ⟨?_, ?_, ?_, by decide⟩
  · intro note h
    rw [resolveCommentLineRanges, h]
    rfl
  · intro note a b h
    rw [resolveCommentLineRanges] at h
    rcases hS : List.insertionSort (· ≤ ·) (collectLineNumbers note) with _ | ⟨x, xs⟩
    · rw [hS] at h
      cases h
    · rw [hS] at h
      have hsorted : List.Sorted (· ≤ ·) (x :: xs) := by
        rw [← hS]
        exact List.sorted_insertionSort _ _
    
      have hperm : ∀ y : ℤ, y ∈ x :: xs ↔ y ∈ collectLineNumbers note := by
        intro y
        rw [← hS]
        exact List.mem_insertionSort _
      obtain ⟨ha, hb⟩ : a = x ∧ b = (x :: xs).getLast (List.cons_ne_nil x xs) := by
        have h1 := congrArg Prod.fst h
        have h2 := congrArg Prod.snd h
        simp only at h1 h2
        exact ⟨(Option.some.inj h1).symm, (Option.some.inj h2).symm⟩
      refine ⟨?_, ?_, ?_⟩
      · rw [ha]
        exact (hperm x).1 (List.mem_cons_self x xs)
      · rw [hb]
        exact (hperm _).1 (List.getLast_mem (List.cons_ne_nil x xs))
      · intro y hy
        have hy2 : y ∈ x :: xs := (hperm y).2 hy
        rw [ha, hb]
        exact ⟨sorted_head_le hsorted y hy2, sorted_le_getLast hsorted y hy2 _⟩
  · intro s l
    cases s with
    | none => simp [prCommentStartLine]
    | some sv =>
      cases l with
      | none => simp [prCommentStartLine]
      | some lv =>
        by_cases hlt : sv < lv
        · simp [prCommentStartLine, hlt]
        · simp [prCommentStartLine, hlt]

theorem line_range_resolution_witness :
    (resolveCommentLineRanges exampleAnchorNote = (some 10, some 12)) ∧
    ((10 : ℤ) ∈ collectLineNumbers exampleAnchorNote ∧
      (12 : ℤ) ∈ collectLineNumbers exampleAnchorNote ∧
      ∀ x ∈ collectLineNumbers exampleAnchorNote, (10 : ℤ) ≤ x ∧ x ≤ 12) :=
  ⟨by decide, line_range_resolution.2.1 exampleAnchorNote 10 12 (by decide)⟩

/-! ## Claim about backoff bounds -/

/-- Claim C3: (backoff bounds): with zero jitter the delay is
`initialDelay · factor^k` clamped to `maxDelay`; and for any jitter draw
`u ∈ [-1, 1]` (the code samples `rand.Float64()*2 - 1 ∈ [-1, 1)`), the
delay actually waited lies within `[0.8, 1.2]` times that clamped
value. -/
theorem calculateBackoff_bounds (k : ℕ) (initialDelay factor maxDelay u : ℚ)
    (hd : 0 ≤ initialDelay) (hf : 0 ≤ factor) (hM : 0 ≤ maxDelay)
    (hu1 : -1 ≤ u) (hu2 : u ≤ 1) :
    calculateBackoff k initialDelay factor maxDelay 0
      = min (initialDelay * factor ^ k) maxDelay ∧
    (4 / 5) * min (initialDelay * factor ^ k) maxDelay
      ≤ calculateBackoff k initialDelay factor maxDelay u ∧
    calculateBackoff k initialDelay factor maxDelay u
      ≤ (6 / 5) * min (initialDelay * factor ^ k) maxDelay := by
  have hb : 0 ≤ initialDelay * factor ^ k := mul_nonneg hd (pow_nonneg hf k)
  set b : ℚ := initialDelay * factor ^ k with hbdef
  refine ⟨?_, ?_, ?_⟩
  · simp only [calculateBackoff, ← hbdef]
    rcases le_or_lt b maxDelay with h | h
    · rw [if_neg (by linarith), min_eq_left h]
      ring
    · rw [if_pos (by nlinarith), min_eq_right (le_of_lt h)]
  · simp only [calculateBackoff, ← hbdef]
    split_ifs with h
    · rcases le_or_lt b maxDelay with h2 | h2
      · rw [min_eq_left h2]
        nlinarith
      · rw [min_eq_right (le_of_lt h2)]
        nlinarith
    · rcases le_or_lt b maxDelay with h2 | h2
      · rw [min_eq_left h2]
        nlinarith
      · rw [min_eq_right (le_of_lt h2)]
        nlinarith
  · simp only [calculateBackoff, ← hbdef]
    split_ifs with h
    · rcases le_or_lt b maxDelay with h2 | h2
      · rw [min_eq_left h2]
        nlinarith
      · rw [min_eq_right (le_of_lt h2)]
        nlinarith
    · rcases le_or_lt b maxDelay with h2 | h2
      · rw [min_eq_left h2]
        nlinarith
      · rw [min_eq_right (le_of_lt h2)]
        nlinarith

theorem calculateBackoff_bounds_witness :
    ((0 : ℚ) ≤ 1 ∧ (0 : ℚ) ≤ 2 ∧ (0 : ℚ) ≤ 60 ∧ (-1 : ℚ) ≤ 1 / 2 ∧ (1 / 2 : ℚ) ≤ 1) ∧
    ((4 / 5) * min ((1 : ℚ) * 2 ^ 3) 60 ≤ calculateBackoff 3 1 2 60 (1 / 2) ∧
      calculateBackoff 3 1 2 60 (1 / 2) ≤ (6 / 5) * min ((1 : ℚ) * 2 ^ 3) 60) :=
  ⟨⟨by norm_num, by norm_num, by norm_num, by norm_num, by norm_num⟩,
   (calculateBackoff_bounds 3 1 2 60 (1 / 2) (by norm_num) (by norm_num) (by norm_num)
     (by norm_num) (by norm_num)).2⟩

/-! ## Claims about the retrying gateway -/

/-- Skipping a run of transient (retryable, non-rate-limit) attempts:
after `j` such attempts the loop is at attempt `attempt + j` with
`fuel - j` budget left. -/
theorem retryAux_skip (op : ℕ → Option GoError) :
    ∀ (j fuel attempt : ℕ) (last : Option GoError), j < fuel →
      (∀ k, k < j → ∃ e2, op (attempt + k) = some e2 ∧
        isRateLimitError e2 = false ∧ isRetryableError e2 = true) →
      ∃ last2, retryAux op attempt fuel last = retryAux op (attempt + j) (fuel - j) last2 := by
  intro j
  induction j with
  | zero =>
    intro fuel attempt last _ _
    exact ⟨last, by rfl⟩
  | succ j ih =>
    intro fuel attempt last hj htrans
    cases fuel with
    | zero => omega
    | succ fuel =>
      obtain ⟨e0, he0, hrl0, hre0⟩ := htrans 0 (by omega)
      rw [Nat.add_zero] at he0
      have hstep : retryAux op attempt (fuel + 1) last = retryAux op (attempt + 1) fuel (some e0) := by
        simp [retryAux, he0, hrl0, hre0]
      obtain ⟨last2, hrec⟩ := ih fuel (attempt + 1) (some e0) (by omega)
        (fun k hk => by
          obtain ⟨e2, he2, h1, h2⟩ := htrans (k + 1) (by omega)
          refine ⟨e2, ?_, h1, h2⟩
          have harith : attempt + (k + 1) = attempt + 1 + k := by omega
          rwa [harith] at he2)
      refine ⟨last2, ?_⟩
      rw [hstep, hrec]
      have h1 : attempt + 1 + j = attempt + (j + 1) := by omega
      have h2 : fuel - j = fuel + 1 - (j + 1) := by omega
      rw [h1, h2]

/-- Claim C4: (counterexample): HTTP 501 is a `5xx` status, yet the gateway
returns it immediately as non-retryable — it is neither retried nor
turned into an exhaustion error — refuting "a transient error (5xx or
transport failure) is retried up to the fixed ceiling". -/
theorem gateway_all_5xx_retried_refuted :
    (500 ≤ 501 ∧ 501 < 600) ∧
    isRetryableError (.errorResponse 501 []) = false ∧
    RetryableOperation (fun _ => some (.errorResponse 501 [])) =
      .nonRetryable (.errorResponse 501 []) := by
  decide

/-- Claim C4: (amended): the gateway classifies HTTP 403 with message
`rate limit` and HTTP 429 as rate-limit errors (returned immediately,
distinctly wrapped, whatever retry budget remains); HTTP 500, 502, 503,
504 and transport (`url.Error`) failures as retryable (429 is also in
the retryable set but the rate-limit check precedes it); and everything
else — including other 5xx codes such as 501 — is returned immediately.
Five all-transient attempts exhaust the budget and return the wrapped
`operation failed after 5 attempts` error carrying the last cause. -/
theorem gateway_classification :
    (∀ (code : ℕ) (msg : GoStr), isRateLimitError (.errorResponse code msg) = true ↔
      (code = 403 ∧ msg = "rate limit".toList) ∨ code = 429) ∧
    (∀ (code : ℕ) (msg : GoStr), isRetryableError (.errorResponse code msg) = true ↔
      code = 429 ∨ code = 500 ∨ code = 502 ∨ code = 503 ∨ code = 504) ∧
    (∀ msg, isRetryableError (.urlError msg) = true ∧
      isRateLimitError (.urlError msg) = false ∧
      isRateLimitError (.other msg) = false ∧
      isRetryableError (.other msg) = false) ∧
    (∀ (op : ℕ → Option GoError) (j : ℕ) (e : GoError), j < maxRetries →
      (∀ k, k < j → ∃ e2, op k = some e2 ∧
        isRateLimitError e2 = false ∧ isRetryableError e2 = true) →
      op j = some e → isRateLimitError e = true →
      RetryableOperation op = .rateLimited e) ∧
    (∀ (op : ℕ → Option GoError) (j : ℕ) (e : GoError), j < maxRetries →
      (∀ k, k < j → ∃ e2, op k = some e2 ∧
        isRateLimitError e2 = false ∧ isRetryableError e2 = true) →
      op j = some e → isRateLimitError e = false → isRetryableError e = false →
      RetryableOperation op = .nonRetryable e) ∧
    (∀ op : ℕ → Option GoError,
      (∀ k, k < maxRetries → ∃ e2, op k = some e2 ∧
        isRateLimitError e2 = false ∧ isRetryableError e2 = true) →
      ∃ e, op (maxRetries - 1) = some e ∧
        RetryableOperation op = .exhausted maxRetries (some e)) := by
  refine ⟨?_, ?_, ?_, ?_, ?_, ?_⟩
  · intro code msg
    simp [isRateLimitError]
  · intro code msg
    simp only [isRetryableError, Bool.or_eq_true, beq_iff_eq]
    tauto
  · intro msg
    exact ⟨rfl, rfl, rfl, rfl⟩
  · intro op j e hj htrans hj_op hrate
    obtain ⟨last2, hskip⟩ := retryAux_skip op j maxRetries 0 none hj
      (fun k hk => by simpa using htrans k hk)
    rw [RetryableOperation, hskip]
    rw [Nat.zero_add]
    have hfuel : maxRetries - j = (maxRetries - j - 1) + 1 := by
      rw [maxRetries] at hj ⊢
      omega
    rw [hfuel]
    simp [retryAux, hj_op, hrate]
  · intro op j e hj htrans hj_op hrate hretry
    obtain ⟨last2, hskip⟩ := retryAux_skip op j maxRetries 0 none hj
      (fun k hk => by simpa using htrans k hk)
    rw [RetryableOperation, hskip]
    rw [Nat.zero_add]
    have hfuel : maxRetries - j = (maxRetries - j - 1) + 1 := by
      rw [maxRetries] at hj ⊢
      omega
    rw [hfuel]
    simp [retryAux, hj_op, hrate, hretry]
  · intro op htrans
    obtain ⟨e4, he4, hrl4, hre4⟩ := htrans 4 (by rw [maxRetries]; omega)
    refine ⟨e4, by rw [maxRetries]; exact he4, ?_⟩
    obtain ⟨last2, hskip⟩ := retryAux_skip op 4 maxRetries 0 none (by rw [maxRetries]; omega)
      (fun k hk => by simpa using htrans k (by rw [maxRetries]; omega))
    rw [RetryableOperation, hskip, Nat.zero_add]
    have hfuel : maxRetries - 4 = 1 := by rw [maxRetries]
    rw [hfuel]
    simp [retryAux, he4, hrl4, hre4]

theorem gateway_classification_witness :
    (((fun _ => some (.errorResponse 429 [])) : ℕ → Option GoError) 0
        = some (.errorResponse 429 []) ∧
      isRateLimitError (.errorResponse 429 []) = true ∧
      RetryableOperation (fun _ => some (.errorResponse 429 []))
        = .rateLimited (.errorResponse 429 [])) ∧
    (∃ e, ((fun _ => some (.urlError [])) : ℕ → Option GoError) (maxRetries - 1) = some e ∧
      RetryableOperation (fun _ => some (.urlError [])) = .exhausted maxRetries (some e)) :=
  ⟨⟨by decide, by decide,
    gateway_classification.2.2.2.1 (fun _ => some (.errorResponse 429 [])) 0
      (.errorResponse 429 []) (by decide)
      (fun k hk => absurd hk (by omega)) (by decide) (by decide)⟩,
   gateway_classification.2.2.2.2.2 (fun _ => some (.urlError []))
     (fun k hk => ⟨.urlError [], rfl, by decide, by decide⟩)⟩

/-! ## Claim about branch-preparation failure handling -/

/-- A git oracle whose source-branch creation from the head sha fails
with a non-`not our ref` error; everything else succeeds. -/
def gitDeniedAtHead : GitOps :=
  { createBranch := fun _branch sha =>
      if sha = "headsha".toList then some "exit status 128: permission denied".toList else none
    commitEmpty := none
    push := none }

/-- Claim C5: (code evaluation at the failing input): when materializing the
target (resp. source) branch fails with an error *not* matching
`not our ref`, `preparePullRequestBranches` stops before any push — but
it returns a nil error, so `createPullRequest` proceeds to attempt the
GitHub PR-creation call for that item, contrary to the claim that no
pull-request creation is attempted. -/
theorem branch_prep_failure_still_attempts_pr :
    (goContainsSub "exit status 128: permission denied".toList notOurRef = false) ∧
    (preparePullRequestBranches gitDeniedAtBase
        ⟨"basesha".toList, "headsha".toList, []⟩
        "gitlab-mr-9-source".toList "gitlab-mr-9-target".toList true
      = ⟨none, [GitAction.createBranch "gitlab-mr-9-target".toList "basesha".toList]⟩ ∧
      createPullRequestAttemptsCreate gitDeniedAtBase
        ⟨"basesha".toList, "headsha".toList, []⟩
        "gitlab-mr-9-source".toList "gitlab-mr-9-target".toList true = true) ∧
    (preparePullRequestBranches gitDeniedAtHead
        ⟨"basesha".toList, "headsha".toList, []⟩
        "gitlab-mr-9-source".toList "gitlab-mr-9-target".toList true
      = ⟨none,
          [GitAction.createBranch "gitlab-mr-9-target".toList "basesha".toList,
           GitAction.createBranch "gitlab-mr-9-source".toList "headsha".toList]⟩ ∧
      createPullRequestAttemptsCreate gitDeniedAtHead
        ⟨"basesha".toList, "headsha".toList, []⟩
        "gitlab-mr-9-source".toList "gitlab-mr-9-target".toList true = true) := by
  decide

/-! ## Claim about comment-body truncation bounds -/

theorem truncateSuffix_length : TruncateSuffix.length = 15 := by decide

/-- Claim C9: (code evaluation at the failing input): a resolved note whose
body is 65536 runes long is submitted, after the `Resolved` disclosure
wrapping, as a body of 65550 runes — the wrapper re-truncates the inner
text to `MaxCommentLength - 35` but itself adds 49 runes, so the
submitted body exceeds the 65536-rune destination comment limit. -/
theorem resolved_comment_body_exceeds_limit :
    (createIssueCommentBody (List.replicate 65536 'a') true).length = 65550 ∧
    MaxCommentLength = 65536 ∧ MaxCommentLength < 65550 := by
  refine ⟨?_, rfl, by norm_num [MaxCommentLength]⟩
  have hlen : (List.replicate 65536 'a' : GoStr).length = 65536 :=
    List.length_replicate 65536 'a'
  have hA : TruncateText (List.replicate 65536 'a') MaxCommentLength
      = List.replicate 65536 'a' := by
    have hc : (List.replicate 65536 'a' : GoStr).length ≤ MaxCommentLength := by
      rw [hlen]
      decide
    rw [TruncateText, if_pos hc]
  have hB : (TruncateText (List.replicate 65536 'a') (MaxCommentLength - 35)).length
      = 65501 := by
    have hc2 : ¬ ((List.replicate 65536 'a' : GoStr).length ≤ MaxCommentLength - 35) := by
      rw [hlen]
      decide
    have hc3 : ¬ (MaxCommentLength - 35 - TruncateSuffix.length = 0) := by decide
    simp only [TruncateText]
    rw [if_neg hc2, if_neg hc3, List.length_append, List.length_take, hlen,
      truncateSuffix_length]
    decide
  have hwrap : createIssueCommentBody (List.replicate 65536 'a') true
      = "<details><summary>Resolved</summary>\n\n".toList
          ++ TruncateText (List.replicate 65536 'a') (MaxCommentLength - 35)
          ++ "\n</details>".toList := by
    simp only [createIssueCommentBody, if_true, hA, WrapCommentAsResolved]
  rw [hwrap, List.length_append, List.length_append, hB]
  decide
